import Mathlib

/-!
Verification of the CSharpRagService embedding service
(`embedding_server.py`) and its launcher (`start_server.py`).

The Python service wraps a pretrained text-embedding model behind a small
FastAPI HTTP interface.  We embed the repository's own code shallowly:
the external framework pieces (tokenizer, transformer forward pass) are
abstract functions carried in a context, floating-point numbers are
modelled as real numbers, exceptions are modelled with `Except`, and the
process/launcher lifecycles are modelled as explicit state.
-/

namespace RagService

/-! ## Embedding pipeline (`get_text_embedding` in embedding_server.py)

The tokenizer and model are external collaborators (HuggingFace
transformers); we model them as abstract functions in a `ModelCtx`,
recording exactly the arguments the Python code passes to them. -/

/-- Arguments the code passes to the tokenizer call
`tokenizer(text, return_tensors="pt", padding=True, truncation=True, max_length=512)`. -/
structure TokenizeArgs where
  padding : Bool
  truncation : Bool
  max_length : Nat
deriving DecidableEq, Repr

/-- Arguments of the forward pass: `torch.no_grad()` wraps the call, so
gradient computation is disabled. -/
structure ForwardArgs where
  no_grad : Bool
deriving DecidableEq, Repr

/-- The loaded tokenizer and model, abstract.  `forward` returns the
`last_hidden_state` tensor: batch x sequence x hidden, as nested lists of
reals (floats are modelled as reals). -/
structure ModelCtx (Tok : Type) where
  tokenize : String → TokenizeArgs → Tok
  forward : Tok → ForwardArgs → List (List (List ℝ))

/-- `text = f"[{text}]"`: the fixed, non-configurable delimiter wrap. -/
def wrap_text (text : String) : String := "[" ++ text ++ "]"

/-- The tokenizer arguments used by `get_text_embedding`: padding=True,
truncation=True, max_length=512. -/
def tokenizeArgsUsed : TokenizeArgs := { padding := true, truncation := true, max_length := 512 }

/-- The forward-pass arguments used: the call happens under `torch.no_grad()`. -/
def forwardArgsUsed : ForwardArgs := { no_grad := true }

/-- `outputs.last_hidden_state[:, 0, :]` followed by `embeddings[0].tolist()`:
the first-position (CLS) hidden state of the first batch element. -/
def cls_embedding (last_hidden_state : List (List (List ℝ))) : List ℝ :=
  (last_hidden_state.headD []).headD []

/-- Sum of squares of the entries of a vector. -/
def sumSq (v : List ℝ) : ℝ := (v.map (fun x => x * x)).sum

/-- `np.linalg.norm` on a 1-D array: the Euclidean norm. -/
noncomputable def euclid_norm (v : List ℝ) : ℝ := Real.sqrt (sumSq v)

/-- Shallow embedding of `get_text_embedding(text, normalize)`:
wrap the text in brackets, tokenize, run the forward pass without
gradients, take the first-position hidden state, and optionally divide by
the Euclidean norm when that norm is positive. -/
noncomputable def get_text_embedding {Tok : Type} (ctx : ModelCtx Tok)
    (text : String) (normalize : Bool) : List ℝ :=
  let wrapped := wrap_text text
  let inputs := ctx.tokenize wrapped tokenizeArgsUsed
  let outputs := ctx.forward inputs forwardArgsUsed
  let embedding := cls_embedding outputs
  if normalize then
    let norm := euclid_norm embedding
    if norm > 0 then embedding.map (fun x => x / norm) else embedding
  else
    embedding

/-- The raw first-position hidden-state output of a direct invocation of
the model on an input text (no normalization step). -/
noncomputable def raw_model_embedding {Tok : Type} (ctx : ModelCtx Tok)
    (text : String) : List ℝ :=
  cls_embedding (ctx.forward (ctx.tokenize (wrap_text text) tokenizeArgsUsed) forwardArgsUsed)

/-! ## HTTP data model and the `/embed` endpoint -/

/-- `MODEL_NAME = "google/embeddinggemma-300m"`. -/
def MODEL_NAME : String := "google/embeddinggemma-300m"

/-- Pydantic `EmbeddingRequest`: a list of texts and a `normalize` flag
defaulting to `True`. -/
structure EmbeddingRequest where
  texts : List String
  normalize : Bool := true

/-- Pydantic `EmbeddingResponse`. -/
structure EmbeddingResponse where
  embeddings : List (List ℝ)
  model : String
  inference_time : Option ℝ := none

/-- Pydantic `HealthResponse`. -/
structure HealthResponse where
  status : String
  model : String
  device : String
deriving DecidableEq, Repr

/-- FastAPI `HTTPException` carrying a status code and a detail string. -/
structure HTTPException where
  status_code : Nat
  detail : String
deriving DecidableEq, Repr

/-- The per-text loop of `get_embeddings`: each text is embedded in input
order; a raised exception (modelled as `Except.error`) aborts the whole
batch with no partial results. -/
def embedBatch (embedF : String → Bool → Except String (List ℝ))
    (normalize : Bool) : List String → Except String (List (List ℝ))
  | [] => Except.ok []
  | t :: ts => do
    let e ← embedF t normalize
    let rest ← embedBatch embedF normalize ts
    pure (e :: rest)

/-- Shallow embedding of the `POST /embed` handler `get_embeddings`.
`embedF` abstracts the per-text embedding call (which may raise), and
`elapsed` is the measured wall-clock duration of the batch.  A successful
run returns the embeddings with the model name and inference time; any
exception is converted to an HTTP 500 with the original message embedded
in the detail string. -/
def get_embeddings (embedF : String → Bool → Except String (List ℝ))
    (elapsed : ℝ) (request : EmbeddingRequest) :
    Except HTTPException EmbeddingResponse :=
  match embedBatch embedF request.normalize request.texts with
  | Except.ok embeddings =>
      Except.ok { embeddings := embeddings, model := MODEL_NAME, inference_time := some elapsed }
  | Except.error msg =>
      Except.error { status_code := 500, detail := "Error generating embeddings: " ++ msg }

/-! ## Startup lifecycle (`load_model`, `startup_event`) -/

/-- The environment `load_model` runs in: whether CUDA is available, and
the outcomes of the two external loading calls
(`AutoTokenizer.from_pretrained`, `AutoModel.from_pretrained`), each of
which may raise. -/
structure LoadEnv (Tok : Type) where
  cuda_available : Bool
  tokenizer_load : Except String (String → TokenizeArgs → Tok)
  model_load : Except String (Tok → ForwardArgs → List (List (List ℝ)))

/-- The process-wide state `load_model` establishes on success: the
selected device and the loaded tokenizer/model. -/
structure LoadedState (Tok : Type) where
  device : String
  ctx : ModelCtx Tok

/-- Shallow embedding of `load_model`: select `"cuda"` when available else
`"cpu"`, load tokenizer then model; any exception is caught and the
function returns failure (`none` models `return False`). -/
def load_model {Tok : Type} (env : LoadEnv Tok) : Option (LoadedState Tok) :=
  let device := if env.cuda_available then "cuda" else "cpu"
  match env.tokenizer_load with
  | Except.error _ => none
  | Except.ok tok =>
    match env.model_load with
    | Except.error _ => none
    | Except.ok fwd => some { device := device, ctx := { tokenize := tok, forward := fwd } }

/-- Phase of the server process after the FastAPI startup event ran. -/
inductive ServerPhase (Tok : Type) where
  | serving : LoadedState Tok → ServerPhase Tok
  | failed : ServerPhase Tok

/-- Shallow embedding of `startup_event`: on `load_model` failure it
raises, and (per ASGI lifespan semantics) a raising startup event aborts
the application startup, so the process never serves requests. -/
def startup_event {Tok : Type} (loadResult : Option (LoadedState Tok)) : ServerPhase Tok :=
  match loadResult with
  | some st => ServerPhase.serving st
  | none => ServerPhase.failed

/-- The HTTP status observed by a client POSTing to `/embed` in a given
server phase: `none` when the process is not serving (startup aborted),
otherwise the status of the handler's response. -/
def embed_http_status {Tok : Type} (phase : ServerPhase Tok)
    (embedF : String → Bool → Except String (List ℝ)) (elapsed : ℝ)
    (request : EmbeddingRequest) : Option Nat :=
  match phase with
  | ServerPhase.failed => none
  | ServerPhase.serving _ =>
    match get_embeddings embedF elapsed request with
    | Except.ok _ => some 200
    | Except.error e => some e.status_code

/-- Shallow embedding of the `GET /health` handler: it unconditionally
returns (with HTTP 200) status `"healthy"`, the configured model name and
the active device, inspecting nothing else of the loaded state. -/
def health_check {Tok : Type} (st : LoadedState Tok) : Nat × HealthResponse :=
  (200, { status := "healthy", model := MODEL_NAME, device := st.device })

/-! ## Launcher (`start_server.py`) -/

/-- `time.sleep(2)`: the polling interval, in seconds. -/
def POLL_INTERVAL : Nat := 2

/-- `wait_for_server(url, timeout=300)`: the default timeout, in seconds. -/
def DEFAULT_TIMEOUT : Nat := 300

/-- The poll loop of `wait_for_server`, starting at attempt `n`.  `poll m`
is the HTTP status of the `m`-th `GET /health` attempt (`none` models a
`requests.RequestException`).  Attempt `m` happens at elapsed time
`POLL_INTERVAL * m`; the loop runs while the elapsed time is below the
timeout, returns `true` as soon as a status-200 response is seen, and any
other outcome just continues the loop. -/
def wait_from (poll : Nat → Option Nat) (timeout : Nat) (n : Nat) : Bool :=
  if _h : POLL_INTERVAL * n < timeout then
    if poll n = some 200 then true
    else wait_from poll timeout (n + 1)
  else
    false
termination_by timeout - POLL_INTERVAL * n
decreasing_by
  simp only [POLL_INTERVAL] at *
  omega

/-- Shallow embedding of `wait_for_server(url, timeout)`. -/
def wait_for_server (poll : Nat → Option Nat) (timeout : Nat) : Bool :=
  wait_from poll timeout 0

/-- `wait_for_server` called (as in `start_server`) with the default timeout. -/
def wait_for_server_default (poll : Nat → Option Nat) : Bool :=
  wait_for_server poll DEFAULT_TIMEOUT

/-- Observable actions `start_server` performs on the server child process. -/
inductive ProcAction where
  | spawn_server
  | terminate_child
  | wait_child
deriving DecidableEq, Repr

/-- The environment `start_server` runs in: dependency check outcome, the
operator's answer to the install prompt, the install outcome, whether
`subprocess.Popen` succeeds, whether `wait_for_server` observes readiness,
and whether the operator interrupts with Ctrl+C while the server runs. -/
structure LauncherEnv where
  deps_ok : Bool
  user_says_yes : Bool
  install_ok : Bool
  spawn_ok : Bool
  server_ready : Bool
  interrupted : Bool
deriving DecidableEq, Repr

/-- Shallow embedding of `start_server`: returns the boolean result
together with the trace of actions on the child process.  When the health
polling times out, the child is terminated before returning failure. -/
def start_server (env : LauncherEnv) : Bool × List ProcAction :=
  if ¬ env.deps_ok ∧ ¬ env.user_says_yes then
    (false, [])
  else if ¬ env.deps_ok ∧ env.user_says_yes ∧ ¬ env.install_ok then
    (false, [])
  else if ¬ env.spawn_ok then
    (false, [])
  else if env.server_ready then
    if env.interrupted then
      (true, [ProcAction.spawn_server, ProcAction.wait_child,
              ProcAction.terminate_child, ProcAction.wait_child])
    else
      (true, [ProcAction.spawn_server, ProcAction.wait_child])
  else
    (false, [ProcAction.spawn_server, ProcAction.terminate_child])

/-! ## Concrete test fixtures -/

/-- A concrete model context whose forward pass always yields the single
hidden state `[3, 4]`. -/
def testCtx : ModelCtx Unit :=
  { tokenize := fun _ _ => (), forward := fun _ _ => [[[3, 4]]] }

/-- A loading environment in which both external loads raise. -/
def badEnv : LoadEnv Unit :=
  { cuda_available := false
  , tokenizer_load := Except.error "connection error"
  , model_load := Except.error "connection error" }

/-- A concrete successfully-loaded state. -/
def unitState : LoadedState Unit :=
  { device := "cpu", ctx := { tokenize := fun _ _ => (), forward := fun _ _ => [] } }

/-- A second loaded state on the same device but with a different model. -/
def unitState2 : LoadedState Unit :=
  { device := "cpu", ctx := testCtx }

/-! ## Helper lemmas -/

theorem embedBatch_ok (embedF : String → Bool → Except String (List ℝ)) (b : Bool) :
    ∀ (ts : List String) (es : List (List ℝ)),
      embedBatch embedF b ts = Except.ok es →
      es.length = ts.length ∧
      ∀ (i : Nat) (t : String), ts[i]? = some t →
        ∃ v, es[i]? = some v ∧ embedF t b = Except.ok v := by
  intro ts
  induction ts with
  | nil =>
    intro es h
    simp only [embedBatch, Except.ok.injEq] at h
    subst h
    exact ⟨rfl, by intro i t ht; simp at ht⟩
  | cons t ts ih =>
    intro es h
    simp only [embedBatch, bind, Except.bind] at h
    cases h1 : embedF t b with
    | error m => rw [h1] at h; exact absurd h (by simp)
    | ok e =>
      rw [h1] at h
      cases h2 : embedBatch embedF b ts with
      | error m => rw [h2] at h; exact absurd h (by simp)
      | ok rest =>
        rw [h2] at h
        simp only [pure, Except.pure, Except.ok.injEq] at h
        subst h
        obtain ⟨hlen, hidx⟩ := ih rest h2
        refine ⟨by simpa using hlen, ?_⟩
        intro i u hu
        cases i with
        | zero =>
          simp only [List.getElem?_cons_zero, Option.some.injEq] at hu
          subst hu
          exact ⟨e, by simp, h1⟩
        | succ j =>
          simp only [List.getElem?_cons_succ] at hu ⊢
          exact hidx j u hu

theorem embedBatch_error_mem (embedF : String → Bool → Except String (List ℝ)) (b : Bool) :
    ∀ (ts : List String) (m : String),
      embedBatch embedF b ts = Except.error m →
      ∃ t ∈ ts, embedF t b = Except.error m := by
  intro ts
  induction ts with
  | nil => intro m h; exact absurd h (by simp [embedBatch])
  | cons t ts ih =>
    intro m h
    simp only [embedBatch, bind, Except.bind] at h
    cases h1 : embedF t b with
    | error m' =>
      rw [h1] at h
      simp only [Except.error.injEq] at h
      exact ⟨t, List.mem_cons_self t ts, h ▸ h1⟩
    | ok e =>
      rw [h1] at h
      cases h2 : embedBatch embedF b ts with
      | error m' =>
        rw [h2] at h
        simp only [Except.error.injEq] at h
        obtain ⟨u, hu, he⟩ := ih m' h2
        exact ⟨u, List.mem_cons_of_mem t hu, h ▸ he⟩
      | ok rest => rw [h2] at h; exact absurd h (by simp [pure, Except.pure])

theorem embedBatch_error_of_exists (embedF : String → Bool → Except String (List ℝ)) (b : Bool) :
    ∀ (ts : List String),
      (∃ t ∈ ts, ∃ m, embedF t b = Except.error m) →
      ∃ m', embedBatch embedF b ts = Except.error m' := by
  intro ts
  induction ts with
  | nil => intro h; simp at h
  | cons t ts ih =>
    intro h
    cases h1 : embedF t b with
    | error m => exact ⟨m, by simp only [embedBatch, bind, Except.bind, h1]⟩
    | ok e =>
      obtain ⟨u, hu, m, hm⟩ := h
      rcases List.mem_cons.mp hu with rfl | hu'
      · rw [h1] at hm; exact absurd hm (by simp)
      · obtain ⟨m', hm'⟩ := ih ⟨u, hu', m, hm⟩
        exact ⟨m', by simp only [embedBatch, bind, Except.bind, h1, hm']⟩

theorem sumSq_nonneg (v : List ℝ) : 0 ≤ sumSq v := by
  refine List.sum_nonneg ?_
  intro x hx
  simp only [List.mem_map] at hx
  obtain ⟨y, _, rfl⟩ := hx
  exact mul_self_nonneg y

theorem sumSq_eq_zero_iff (v : List ℝ) : sumSq v = 0 ↔ ∀ x ∈ v, x = 0 := by
  induction v with
  | nil => simp [sumSq]
  | cons a t ih =>
    rw [show sumSq (a :: t) = a * a + sumSq t from by simp [sumSq],
      add_eq_zero_iff_of_nonneg (mul_self_nonneg a) (sumSq_nonneg t), mul_self_eq_zero, ih]
    simp

theorem euclid_norm_nonneg (v : List ℝ) : 0 ≤ euclid_norm v := Real.sqrt_nonneg _

theorem euclid_norm_eq_zero_iff (v : List ℝ) : euclid_norm v = 0 ↔ ∀ x ∈ v, x = 0 := by
  rw [euclid_norm, Real.sqrt_eq_zero (sumSq_nonneg v)]
  exact sumSq_eq_zero_iff v

theorem sumSq_div (v : List ℝ) (c : ℝ) :
    sumSq (v.map (fun x => x / c)) = sumSq v / (c * c) := by
  induction v with
  | nil => simp [sumSq]
  | cons a t ih =>
    simp only [sumSq, List.map_cons, List.sum_cons] at *
    rw [div_mul_div_comm, ih, div_add_div_same]

theorem wait_from_iff_aux (poll : Nat → Option Nat) (timeout : Nat) :
    ∀ (k n : Nat), timeout - POLL_INTERVAL * n ≤ k →
      (wait_from poll timeout n = true ↔
        ∃ m, n ≤ m ∧ POLL_INTERVAL * m < timeout ∧ poll m = some 200) := by
  simp only [POLL_INTERVAL]
  intro k
  induction k with
  | zero =>
    intro n hn
    rw [wait_from]
    simp only [POLL_INTERVAL]
    rw [dif_neg (by omega)]
    constructor
    · intro h; exact absurd h (by simp)
    · rintro ⟨m, hm, hlt, _⟩; omega
  | succ k ih =>
    intro n hn
    rw [wait_from]
    simp only [POLL_INTERVAL]
    by_cases hlt : 2 * n < timeout
    · rw [dif_pos hlt]
      by_cases hp : poll n = some 200
      · rw [if_pos hp]
        exact ⟨fun _ => ⟨n, le_refl n, hlt, hp⟩, fun _ => rfl⟩
      · rw [if_neg hp, ih (n + 1) (by omega)]
        constructor
        · rintro ⟨m, hm, hmlt, hp200⟩
          exact ⟨m, by omega, hmlt, hp200⟩
        · rintro ⟨m, hm, hmlt, hp200⟩
          refine ⟨m, ?_, hmlt, hp200⟩
          rcases Nat.lt_or_ge n m with h' | h'
          · omega
          · have : n = m := by omega
            subst this
            exact absurd hp200 hp
    · rw [dif_neg hlt]
      constructor
      · intro h; exact absurd h (by simp)
      · rintro ⟨m, hm, hmlt, _⟩; omega

theorem wait_from_iff (poll : Nat → Option Nat) (timeout n : Nat) :
    wait_from poll timeout n = true ↔
      ∃ m, n ≤ m ∧ POLL_INTERVAL * m < timeout ∧ poll m = some 200 :=
  wait_from_iff_aux poll timeout (timeout - POLL_INTERVAL * n) n (le_refl _)

theorem euclid_norm_normalize (v : List ℝ) (h : 0 < euclid_norm v) :
    euclid_norm (v.map (fun x => x / euclid_norm v)) = 1 := by
  have h0 : euclid_norm v ≠ 0 := ne_of_gt h
  rw [euclid_norm, sumSq_div, Real.sqrt_div (sumSq_nonneg v),
    Real.sqrt_mul_self (le_of_lt h)]
  exact div_self h0

/-! ## Claim theorems -/

/-- C1: for every POST /embed request whose body contains N input texts,
a successful response contains exactly N embedding vectors, one per input
text, in the same order as the inputs. -/
theorem embed_response_count_and_order
    (embedF : String → Bool → Except String (List ℝ)) (elapsed : ℝ)
    (request : EmbeddingRequest) (response : EmbeddingResponse)
    (h : get_embeddings embedF elapsed request = Except.ok response) :
    response.embeddings.length = request.texts.length ∧
    ∀ (i : Nat) (t : String), request.texts[i]? = some t →
      ∃ v, response.embeddings[i]? = some v ∧
        embedF t request.normalize = Except.ok v := by
  unfold get_embeddings at h
  cases h2 : embedBatch embedF request.normalize request.texts with
  | error m => rw [h2] at h; exact absurd h (by simp)
  | ok es =>
    rw [h2] at h
    simp only [Except.ok.injEq] at h
    obtain ⟨hlen, hidx⟩ := embedBatch_ok embedF request.normalize request.texts es h2
    subst h
    exact ⟨hlen, hidx⟩

/-- Witness for C1 at a concrete two-text request. -/
theorem embed_response_count_and_order_witness :
    get_embeddings (fun _ _ => Except.ok ([1] : List ℝ)) 0
        { texts := ["a", "b"], normalize := true } =
      Except.ok { embeddings := [[1], [1]], model := MODEL_NAME, inference_time := some 0 } ∧
    ({ embeddings := [[1], [1]], model := MODEL_NAME,
       inference_time := some 0 } : EmbeddingResponse).embeddings.length =
      ({ texts := ["a", "b"], normalize := true } : EmbeddingRequest).texts.length :=
  ⟨rfl, (embed_response_count_and_order (fun _ _ => Except.ok ([1] : List ℝ)) 0
      { texts := ["a", "b"], normalize := true }
      { embeddings := [[1], [1]], model := MODEL_NAME, inference_time := some 0 } rfl).1⟩

/-- C2: with normalize=false, the returned vector equals, value for value,
the raw first-position hidden-state output of a direct invocation of the
model on that input. -/
theorem embed_no_normalize_raw {Tok : Type} (ctx : ModelCtx Tok) (text : String) :
    get_text_embedding ctx text false = raw_model_embedding ctx text := rfl

/-- C3: with normalize=true the function divides the raw vector by its
Euclidean norm, skipping the division exactly when the norm is zero (so
division by zero never happens); the result has Euclidean norm 1 unless
the raw vector is all-zero, in which case it passes through unchanged,
and the norm is zero precisely for the all-zero vector. -/
theorem normalize_guard_and_unit_norm {Tok : Type} (ctx : ModelCtx Tok) (text : String) :
    (0 < euclid_norm (raw_model_embedding ctx text) →
      get_text_embedding ctx text true =
        (raw_model_embedding ctx text).map
          (fun x => x / euclid_norm (raw_model_embedding ctx text)) ∧
      euclid_norm (get_text_embedding ctx text true) = 1) ∧
    (euclid_norm (raw_model_embedding ctx text) = 0 →
      get_text_embedding ctx text true = raw_model_embedding ctx text) ∧
    (euclid_norm (raw_model_embedding ctx text) = 0 ↔
      ∀ x ∈ raw_model_embedding ctx text, x = 0) := by
  have hrw : get_text_embedding ctx text true =
      (if euclid_norm (raw_model_embedding ctx text) > 0
       then (raw_model_embedding ctx text).map
              (fun x => x / euclid_norm (raw_model_embedding ctx text))
       else raw_model_embedding ctx text) := rfl
  refine ⟨?_, ?_, euclid_norm_eq_zero_iff _⟩
  · intro h
    rw [hrw, if_pos h]
    exact ⟨rfl, euclid_norm_normalize _ h⟩
  · intro h
    rw [hrw, if_neg (by rw [h]; exact lt_irrefl 0)]

/-- Witness for C3 at the concrete raw vector `[3, 4]`. -/
theorem normalize_guard_and_unit_norm_witness :
    0 < euclid_norm (raw_model_embedding testCtx "hello") ∧
    euclid_norm (get_text_embedding testCtx "hello" true) = 1 := by
  have hpos : 0 < euclid_norm (raw_model_embedding testCtx "hello") := by
    have hraw : raw_model_embedding testCtx "hello" = [3, 4] := rfl
    rw [hraw, euclid_norm]
    apply Real.sqrt_pos.mpr
    norm_num [sumSq]
  exact ⟨hpos, ((normalize_guard_and_unit_norm testCtx "hello").1 hpos).2⟩

/-- C4: if embedding any text of the request raises, the whole batch is
aborted: the endpoint returns HTTP 500 whose detail is the generic message
followed by the original exception text, and no partial result exists. -/
theorem embed_batch_abort
    (embedF : String → Bool → Except String (List ℝ)) (elapsed : ℝ)
    (request : EmbeddingRequest)
    (h : ∃ t ∈ request.texts, ∃ m, embedF t request.normalize = Except.error m) :
    ∃ msg, (∃ t ∈ request.texts, embedF t request.normalize = Except.error msg) ∧
      get_embeddings embedF elapsed request =
        Except.error { status_code := 500
                     , detail := "Error generating embeddings: " ++ msg } := by
  obtain ⟨m', hb⟩ := embedBatch_error_of_exists embedF request.normalize request.texts h
  refine ⟨m', embedBatch_error_mem embedF request.normalize request.texts m' hb, ?_⟩
  unfold get_embeddings
  rw [hb]

/-- Witness for C4: a request whose second text raises "boom". -/
theorem embed_batch_abort_witness :
    (∃ t ∈ ({ texts := ["good", "bad"], normalize := true } : EmbeddingRequest).texts,
      ∃ m, (fun (t : String) (_ : Bool) =>
        if t = "bad" then Except.error "boom" else Except.ok ([] : List ℝ)) t true =
          Except.error m) ∧
    ∃ msg, (∃ t ∈ ({ texts := ["good", "bad"], normalize := true } : EmbeddingRequest).texts,
        (fun (t : String) (_ : Bool) =>
          if t = "bad" then Except.error "boom" else Except.ok ([] : List ℝ)) t true =
            Except.error msg) ∧
      get_embeddings
        (fun (t : String) (_ : Bool) =>
          if t = "bad" then Except.error "boom" else Except.ok ([] : List ℝ)) 0
        { texts := ["good", "bad"], normalize := true } =
        Except.error { status_code := 500
                     , detail := "Error generating embeddings: " ++ msg } := by
  refine ⟨⟨"bad", by simp, "boom", by simp⟩, ?_⟩
  exact embed_batch_abort
    (fun (t : String) (_ : Bool) =>
      if t = "bad" then Except.error "boom" else Except.ok ([] : List ℝ))
    0 { texts := ["good", "bad"], normalize := true }
    ⟨"bad", by simp, "boom", by simp⟩

/-- C5: when load_model fails, the startup event raises and the process
never reaches a state in which POST /embed returns HTTP 200. -/
theorem no_embed_200_without_model {Tok : Type} (env : LoadEnv Tok)
    (hload : load_model env = none)
    (embedF : String → Bool → Except String (List ℝ)) (elapsed : ℝ)
    (request : EmbeddingRequest) :
    embed_http_status (startup_event (load_model env)) embedF elapsed request ≠ some 200 := by
  rw [hload]
  intro hc
  simp [startup_event, embed_http_status] at hc

/-- Witness for C5: both external loads raise, so no request ever gets 200. -/
theorem no_embed_200_without_model_witness :
    load_model badEnv = none ∧
    embed_http_status (startup_event (load_model badEnv))
        (fun _ _ => Except.ok []) 0 { texts := ["hello"] } ≠ some 200 :=
  ⟨rfl, no_embed_200_without_model badEnv rfl (fun _ _ => Except.ok []) 0 { texts := ["hello"] }⟩

/-- C6: once the process has started successfully, GET /health returns
HTTP 200 with status "healthy", the configured model name and the active
device, and the response depends on nothing but the device (no liveness
check of the model itself). -/
theorem health_always_healthy {Tok : Type} (st : LoadedState Tok) :
    (health_check st).1 = 200 ∧
    (health_check st).2 =
      { status := "healthy", model := MODEL_NAME, device := st.device } ∧
    ∀ (st' : LoadedState Tok), st'.device = st.device →
      health_check st' = health_check st := by
  refine ⟨rfl, rfl, ?_⟩
  intro st' h
  simp [health_check, h]

/-- Witness for C6: two loaded states with different models but the same
device get identical health responses, with code 200. -/
theorem health_always_healthy_witness :
    (health_check unitState).1 = 200 ∧
    unitState2.device = unitState.device ∧
    health_check unitState2 = health_check unitState :=
  ⟨(health_always_healthy unitState).1, rfl,
    (health_always_healthy unitState).2.2 unitState2 rfl⟩

/-- C7: the embedding function wraps the text in the fixed bracket
delimiters, tokenizes with padding and truncation at max_length 512, runs
the forward pass with gradients disabled, and selects the first-position
hidden state of the output as the representative vector. -/
theorem embed_pipeline_structure {Tok : Type} (ctx : ModelCtx Tok)
    (text : String) (normalize : Bool) :
    (get_text_embedding ctx text normalize =
      (let outputs := ctx.forward
          (ctx.tokenize ("[" ++ text ++ "]")
            { padding := true, truncation := true, max_length := 512 })
          { no_grad := true }
       let v := cls_embedding outputs
       if normalize then
         (if euclid_norm v > 0 then v.map (fun x => x / euclid_norm v) else v)
       else v)) ∧
    ∀ (row : List ℝ) (seqRest : List (List ℝ)) (batchRest : List (List (List ℝ))),
      cls_embedding ((row :: seqRest) :: batchRest) = row :=
  ⟨rfl, fun _ _ _ => rfl⟩

/-- C8: wait_for_server polls GET /health every 2 seconds for up to the
timeout (300 seconds by default), succeeds exactly when some poll within
the timeout observes HTTP 200, and fails otherwise. -/
theorem wait_for_server_readiness (poll : Nat → Option Nat) (timeout : Nat) :
    (wait_for_server poll timeout = true ↔
      ∃ m, 2 * m < timeout ∧ poll m = some 200) ∧
    wait_for_server_default poll = wait_for_server poll 300 ∧
    POLL_INTERVAL = 2 ∧ DEFAULT_TIMEOUT = 300 := by
  refine ⟨?_, rfl, rfl, rfl⟩
  rw [wait_for_server, wait_from_iff]
  simp only [POLL_INTERVAL, Nat.zero_le, true_and]

/-- Witness for C8: a poll sequence whose fourth attempt returns 200
makes the default wait succeed. -/
theorem wait_for_server_readiness_witness :
    wait_for_server (fun m => if m = 3 then some 200 else none) 300 = true :=
  ((wait_for_server_readiness (fun m => if m = 3 then some 200 else none) 300).1).mpr
    ⟨3, by omega, by simp⟩

/-- C9: a POST /embed request with an empty texts list succeeds with an
empty embeddings list and an inference_time, rather than erroring. -/
theorem embed_empty_texts (embedF : String → Bool → Except String (List ℝ))
    (elapsed : ℝ) (b : Bool) :
    get_embeddings embedF elapsed { texts := [], normalize := b } =
      Except.ok { embeddings := [], model := MODEL_NAME, inference_time := some elapsed } := rfl

/-- C10: when the health polling times out, start_server terminates the
spawned child process and returns failure, leaving no orphaned child. -/
theorem launcher_terminates_on_timeout (env : LauncherEnv)
    (hdeps : env.deps_ok = true ∨ (env.user_says_yes = true ∧ env.install_ok = true))
    (hspawn : env.spawn_ok = true) (hready : env.server_ready = false) :
    start_server env = (false, [ProcAction.spawn_server, ProcAction.terminate_child]) := by
  obtain ⟨d, u, i, s, r, it⟩ := env
  simp only at hdeps hspawn hready
  subst hspawn hready
  rcases hdeps with hd | ⟨hu, hi⟩
  · subst hd; simp [start_server]
  · subst hu hi; cases d <;> simp [start_server]

/-- Witness for C10: dependencies present, spawn succeeds, server never
becomes ready — the child is terminated and failure returned. -/
theorem launcher_terminates_on_timeout_witness :
    ((true : Bool) = true ∨ ((false : Bool) = true ∧ (false : Bool) = true)) ∧
    start_server { deps_ok := true, user_says_yes := false, install_ok := false
                 , spawn_ok := true, server_ready := false, interrupted := false } =
      (false, [ProcAction.spawn_server, ProcAction.terminate_child]) :=
  ⟨Or.inl rfl,
    launcher_terminates_on_timeout
      { deps_ok := true, user_says_yes := false, install_ok := false
      , spawn_ok := true, server_ready := false, interrupted := false }
      (Or.inl rfl) rfl rfl⟩

end RagService
